import Mathlib

/-!
Verification of the chunked CSV export flow of the temperature dashboard
(src/src/app/components/TemperatureDashboard.tsx).

The embedding models, faithfully to the source:
  - the record shape (interface TemperaturePoint) as it is interpolated into CSV text;
  - the paginated endpoint response shape consumed by executeDownload;
  - the while(hasMore) download loop of executeDownload (lines 388 to 446),
    including the header fragment, the per page CSV encoding, the skip of
    empty fragments, the offset and totalFetched bookkeeping, and the
    progress computation with JavaScript division semantics;
  - the surrounding control of executeDownload: the preview gate, the
    backend configuration check, blob creation on completion, the state
    clearing on success and the alert only behaviour on failure;
  - previewDownload up to the point where its single record request is issued;
  - the month and date range change handlers of the download filter UI.

The endless while loop of the source is embedded with an explicit fuel
parameter; a run that exhausts fuel is reported by a dedicated outcome
value and is excluded by hypothesis in the theorems, which quantify over
completed or failed runs only.
-/

namespace UHATL

/-- One record as it is emitted into the CSV. In the source the latitude,
longitude and temperature fields are numbers that are interpolated into a
template string; since the export only ever uses their rendered text, the
fields are modelled as their decimal string renderings. -/
structure Row where
  date : String
  time : String
  latitude : String
  longitude : String
  probe_temperature_f : String
  transit : String
deriving DecidableEq, Repr

/-- One response of the paginated query endpoint as consumed by
executeDownload: a non 2xx HTTP response, a logical failure with
success equal to false, or a success body with data, fetchedCount and
hasMore. An absent error field of a logical failure is modelled as the
empty string, matching the falsy test in the source. -/
inductive ChunkResponse where
  | httpError (status : Nat) (errorText : String)
  | logicalError (error : String)
  | ok (data : List Row) (fetchedCount : Nat) (hasMore : Bool)
deriving DecidableEq, Repr

/-- The data field of a response; empty for failures. -/
def responseData : ChunkResponse → List Row
  | .ok data _ _ => data
  | _ => []

/-- True exactly for the two failure shapes: a non 2xx HTTP response or a
body with success equal to false. -/
def isFailureResponse : ChunkResponse → Bool
  | .httpError _ _ => true
  | .logicalError _ => true
  | .ok _ _ _ => false

/-- True for a success response whose hasMore flag is set. -/
def isOkWithMore : ChunkResponse → Bool
  | .ok _ _ true => true
  | _ => false

/-- A JavaScript number as far as the progress computation can observe it:
either an ordinary natural number or NaN. NaN arises from 0/0 when the
preview count is zero and nothing has been fetched. -/
inductive JsProgress where
  | num (n : Nat)
  | nan
deriving DecidableEq, Repr

def JsProgress.isNum : JsProgress → Bool
  | .num _ => true
  | .nan => false

def JsProgress.val : JsProgress → Nat
  | .num n => n
  | .nan => 0

/-- Round half up of a/b for b positive, the value Math.round gives on the
exact quotient. -/
def jsRound (a b : Nat) : Nat := (2 * a + b) / (2 * b)

/-- Math.min(Math.round((totalFetched / count) * 100), 100) with
JavaScript division semantics: for count zero, 0/0 is NaN (and
Math.min(NaN, 100) is NaN) while x/0 for positive x is infinity, so the
capped value is 100. For positive count the source divides IEEE doubles;
the exact half up rounding used here can differ from the double rounded
quotient by at most the final unit, and both agree on monotonicity and on
the cap at 100, which is all the claims use. -/
def progressOf (count totalFetched : Nat) : JsProgress :=
  if count = 0 then
    (if totalFetched = 0 then .nan else .num 100)
  else
    .num (min (jsRound (totalFetched * 100) count) 100)

/-- CHUNK_SIZE constant of executeDownload. -/
def CHUNK_SIZE : Nat := 5000

/-- The header fragment pushed before the loop. -/
def headerLine : String := "date,time,latitude,longitude,probe_temperature_f,transit\n"

/-- One CSV line of the loop body: literal field interpolation with comma
separators and a trailing newline; no quoting or escaping. -/
def encodeRow (r : Row) : String :=
  r.date ++ "," ++ r.time ++ "," ++ r.latitude ++ "," ++ r.longitude ++ ","
    ++ r.probe_temperature_f ++ "," ++ r.transit ++ "\n"

/-- The chunkCsv accumulation: start from the empty string and append one
encoded line per row of the page, in page order. -/
def encodeChunk (rows : List Row) : String :=
  rows.foldl (fun acc r => acc ++ encodeRow r) ""

/-- Concatenation of a fragment list in append order. -/
def concatStrings : List String → String
  | [] => ""
  | s :: rest => s ++ concatStrings rest

/-- The message of the thrown error for each failure shape, following the
source texts, with the JavaScript or fallback on an empty error string. -/
def failMessage : ChunkResponse → String
  | .httpError status text => "Chunk fetch failed (" ++ toString status ++ "): " ++ text
  | .logicalError e => if e = "" then "Failed to fetch chunk" else e
  | .ok _ _ _ => ""

/-- Outcome of the download loop. fuelOut is an artefact of the fuel
bounded embedding of while(hasMore) and never occurs with enough fuel. -/
inductive LoopOutcome where
  | completed
  | failed (message : String)
  | fuelOut
deriving DecidableEq, Repr

/-- Trace of one run of the while(hasMore) loop, from the current
iteration onward: outcome, data fragments pushed onto blobParts, offsets
of the page requests issued, progress values emitted, rows received, and
the final totalFetched. -/
structure LoopOut where
  outcome : LoopOutcome
  frags : List String
  offsets : List Nat
  progressLog : List JsProgress
  rows : List Row
  totalFetched : Nat
deriving DecidableEq, Repr

/-- The while(hasMore) loop of executeDownload. Each iteration requests
the page at the current offset with limit CHUNK_SIZE; a failure throws
(ending the loop with no fragment or progress update from this
iteration); a success appends the encoded page when non empty, advances
totalFetched and offset, emits a progress value, and continues exactly
when the response says hasMore. -/
def downloadLoop (server : Nat → Nat → ChunkResponse) (count : Nat) :
    Nat → Nat → Nat → LoopOut
  | 0, _, totalFetched => ⟨.fuelOut, [], [], [], [], totalFetched⟩
  | fuel + 1, offset, totalFetched =>
    match server offset CHUNK_SIZE with
    | .httpError status text =>
      ⟨.failed (failMessage (.httpError status text)), [], [offset], [], [], totalFetched⟩
    | .logicalError e =>
      ⟨.failed (failMessage (.logicalError e)), [], [offset], [], [], totalFetched⟩
    | .ok data fetchedCount hasMore =>
      let chunkCsv := encodeChunk data
      let frag := if chunkCsv.length > 0 then [chunkCsv] else []
      let newTotal := totalFetched + fetchedCount
      let prog := progressOf count newTotal
      match hasMore with
      | true =>
        let rest := downloadLoop server count fuel (offset + CHUNK_SIZE) newTotal
        ⟨rest.outcome, frag ++ rest.frags, offset :: rest.offsets,
          prog :: rest.progressLog, data ++ rest.rows, rest.totalFetched⟩
      | false =>
        ⟨.completed, frag, [offset], [prog], data, newTotal⟩

/-- interface DownloadSummary from the source. estimatedSizeMB is a
display only number never read by the export logic; it is modelled as a
natural number. -/
structure DownloadSummary where
  count : Nat
  dateRange : String
  timeRange : String
  transport : String
  estimatedSizeMB : Nat
deriving DecidableEq, Repr

/-- The download related React state of TemperatureDashboard. -/
structure DashState where
  downloadStartDate : String
  downloadEndDate : String
  downloadStartTime : String
  downloadEndTime : String
  downloadTransport : Option String
  downloadMonth : Option Nat
  downloadSummary : Option DownloadSummary
  downloadProgress : JsProgress
deriving DecidableEq, Repr

/-- Initial values of the download state hooks in the source: empty
strings, null selections, no summary, progress zero. -/
def initialDashState : DashState :=
  ⟨"", "", "", "", none, none, none, .num 0⟩

/-- JavaScript truthiness of an environment string: undefined and the
empty string are falsy. -/
def truthyStr : Option String → Bool
  | none => false
  | some s => s != ""

/-- JavaScript truthiness of the downloadMonth value: null and zero are
falsy. -/
def truthyMonth : Option Nat → Bool
  | none => false
  | some m => m != 0

/-- Outcome of one call of executeDownload. Alerts in the source are
modelled by the outcome value carried to the caller. -/
inductive ExecOutcome where
  | noPreview
  | configMissing
  | success
  | failed (message : String)
  | fuelOut
deriving DecidableEq, Repr

def ExecOutcome.isFailed : ExecOutcome → Bool
  | .failed _ => true
  | _ => false

/-- Observable result of one call of executeDownload: the final React
state, the offsets of all page requests issued, the blob parts of the
produced artifact (none when no blob is created), the data fragments
pushed during the run, the progress values emitted, the rows received,
and the outcome. -/
structure ExecResult where
  finalState : DashState
  offsets : List Nat
  artifact : Option (List String)
  dataFragments : List String
  progressLog : List JsProgress
  rowsReceived : List Row
  outcome : ExecOutcome
deriving DecidableEq, Repr

/-- The clear download state block run after a successful download
(source lines 473 to 480). -/
def clearedDownloadState (st : DashState) : DashState :=
  { st with
    downloadStartDate := "", downloadEndDate := "",
    downloadStartTime := "", downloadEndTime := "",
    downloadTransport := none, downloadMonth := none,
    downloadSummary := none, downloadProgress := .num 0 }

/-- The last progress value set during a run, or the zero set at start. -/
def lastProgress (log : List JsProgress) : JsProgress :=
  (log.getLast?).getD (.num 0)

/-- Wrap a finished loop into the executeDownload result: on completion
the blob is assembled from the header fragment followed by the data
fragments and the download state is cleared; on failure or fuel
exhaustion no blob is created and only the progress state has moved. -/
def execFromLoop (stP : DashState) (lo : LoopOut) : ExecResult :=
  match lo.outcome with
  | .completed =>
    ⟨clearedDownloadState stP, lo.offsets, some (headerLine :: lo.frags),
      lo.frags, lo.progressLog, lo.rows, .success⟩
  | .failed msg =>
    ⟨stP, lo.offsets, none, lo.frags, lo.progressLog, lo.rows, .failed msg⟩
  | .fuelOut =>
    ⟨stP, lo.offsets, none, lo.frags, lo.progressLog, lo.rows, .fuelOut⟩

/-- executeDownload (source lines 355 to 489). With no preview summary it
alerts and returns at once, before touching any state. Otherwise progress
is reset to zero, the backend configuration is checked before any fetch,
and the chunk loop runs with the preview count driving progress. -/
def executeDownload (st : DashState) (supabaseUrl supabaseAnonKey : Option String)
    (server : Nat → Nat → ChunkResponse) (fuel : Nat) : ExecResult :=
  match st.downloadSummary with
  | none => ⟨st, [], none, [], [], [], .noPreview⟩
  | some summary =>
    let st0 := { st with downloadProgress := .num 0 }
    if !(truthyStr supabaseUrl) || !(truthyStr supabaseAnonKey) then
      ⟨st0, [], none, [], [], [], .configMissing⟩
    else
      let lo := downloadLoop server summary.count fuel 0 0
      execFromLoop { st0 with downloadProgress := lastProgress lo.progressLog } lo

/-- Outcome of one call of previewDownload, as far as the claims read it. -/
inductive PreviewOutcome where
  | validationAlert
  | configFailure
  | requested
deriving DecidableEq, Repr

structure PreviewResult where
  requestIssued : Bool
  outcome : PreviewOutcome
deriving DecidableEq, Repr

/-- previewDownload (source lines 260 to 310), modelled up to the point
where its single record request (limit 1) is issued: the month or date
range validation alert comes first, then the backend configuration check,
which throws before the request; only past both is the request issued.
The summary construction from the response is not needed by any claim. -/
def previewDownload (st : DashState) (supabaseUrl supabaseAnonKey : Option String) :
    PreviewResult :=
  if !(truthyMonth st.downloadMonth)
      && (st.downloadStartDate == "" || st.downloadEndDate == "") then
    ⟨false, .validationAlert⟩
  else if !(truthyStr supabaseUrl) || !(truthyStr supabaseAnonKey) then
    ⟨false, .configFailure⟩
  else
    ⟨true, .requested⟩

/-- A well behaved endpoint over a fixed dataset: the page at an offset is
the next limit records, fetchedCount is the number actually returned, and
hasMore is reported exactly when records remain beyond this page. -/
def idealServer (rows : List Row) (offset limit : Nat) : ChunkResponse :=
  let data := (rows.drop offset).take limit
  .ok data data.length (decide (offset + data.length < rows.length))

/-- Number of page requests a complete run over T records issues:
ceil(T / CHUNK_SIZE), except that the empty dataset still costs the one
probe request the loop makes before it can see hasMore equal false. -/
def numPages (T : Nat) : Nat := max 1 ((T + CHUNK_SIZE - 1) / CHUNK_SIZE)

/-- The values offered by the month select of the download UI. -/
def monthValues : List Nat := [1, 2, 3, 4, 5, 6, 7, 8, 9, 10, 11, 12]

/-- The three download filter change handlers touching the month against
date range exclusion (source lines 749 to 811): the month select onChange
and the two date input onChange closures. -/
inductive FilterOp where
  | setMonth (value : Option Nat)
  | setStartDate (value : String)
  | setEndDate (value : String)
deriving DecidableEq, Repr

/-- Apply one handler. The month handler always stores the value and
clears both dates when the value is truthy; each date handler always
stores the value and clears the month when the value is truthy. -/
def applyFilterOp (st : DashState) : FilterOp → DashState
  | .setMonth v =>
    let st1 := { st with downloadMonth := v }
    if truthyMonth v then
      { st1 with downloadStartDate := "", downloadEndDate := "" }
    else st1
  | .setStartDate v =>
    let st1 := { st with downloadStartDate := v }
    if v != "" then { st1 with downloadMonth := none } else st1
  | .setEndDate v =>
    let st1 := { st with downloadEndDate := v }
    if v != "" then { st1 with downloadMonth := none } else st1

/-- A month value the select element can actually deliver: clearing the
selection, or one of the twelve listed months. -/
def selectableOp : FilterOp → Prop
  | .setMonth none => True
  | .setMonth (some m) => m ∈ monthValues
  | .setStartDate _ => True
  | .setEndDate _ => True

instance : DecidablePred selectableOp := by
  intro op
  cases op with
  | setMonth v => cases v <;> simp [selectableOp] <;> infer_instance
  | setStartDate v => exact .isTrue trivial
  | setEndDate v => exact .isTrue trivial

/-- The mutual exclusion invariant: never both a month and a date range
value set. -/
def exclusiveFilters (st : DashState) : Prop :=
  ¬(st.downloadMonth.isSome = true ∧
    (st.downloadStartDate ≠ "" ∨ st.downloadEndDate ≠ ""))

/-! ### Basic lemmas about the CSV encoding -/

theorem concatStrings_append (a b : List String) :
    concatStrings (a ++ b) = concatStrings a ++ concatStrings b := by
  induction a with
  | nil => simp [concatStrings, String.empty_append]
  | cons s rest ih => simp [concatStrings, ih, String.append_assoc]

theorem foldl_encode (l : List Row) :
    ∀ acc : String, l.foldl (fun a r => a ++ encodeRow r) acc
      = acc ++ concatStrings (l.map encodeRow) := by
  induction l with
  | nil => intro acc; simp [concatStrings, String.append_empty]
  | cons r rest ih =>
    intro acc
    simp only [List.foldl_cons, List.map_cons, concatStrings, ih, String.append_assoc]

theorem encodeChunk_eq (l : List Row) :
    encodeChunk l = concatStrings (l.map encodeRow) := by
  simpa [encodeChunk, String.empty_append] using foldl_encode l ""

theorem encodeRow_length_pos (r : Row) : 0 < (encodeRow r).length := by
  simp only [encodeRow, String.length_append]
  have : (0 : Nat) < "\n".length := by decide
  omega

theorem encodeChunk_length_pos {l : List Row} (h : l ≠ []) :
    0 < (encodeChunk l).length := by
  cases l with
  | nil => exact absurd rfl h
  | cons r rest =>
    rw [encodeChunk_eq]
    simp only [List.map_cons, concatStrings, String.length_append]
    have := encodeRow_length_pos r
    omega

theorem encodeChunk_nil : encodeChunk [] = "" := rfl

theorem concatStrings_nil : concatStrings [] = "" := rfl

theorem responseData_ok (d : List Row) (c : Nat) (h : Bool) :
    responseData (.ok d c h) = d := rfl

theorem concatStrings_cons (s : String) (l : List String) :
    concatStrings (s :: l) = s ++ concatStrings l := rfl

theorem concatStrings_singleton (s : String) : concatStrings [s] = s := by
  simp [concatStrings, String.append_empty]

/-! ### Structure of a download loop run -/

/-- The data fragments pushed, concatenated in order, encode exactly the
rows received, in order. -/
theorem loop_frags_join (server : Nat → Nat → ChunkResponse) (count : Nat) :
    ∀ (fuel offset tf : Nat),
      concatStrings (downloadLoop server count fuel offset tf).frags
        = concatStrings
            (((downloadLoop server count fuel offset tf).rows).map encodeRow) := by
  intro fuel
  induction fuel with
  | zero => intro offset tf; simp [downloadLoop, concatStrings]
  | succ fuel ih =>
    intro offset tf
    simp only [downloadLoop]
    cases hs : server offset CHUNK_SIZE with
    | httpError s t => simp [concatStrings]
    | logicalError e => simp [concatStrings]
    | ok data fetchedCount hasMore =>
      by_cases hd : data = []
      · subst hd
        cases hasMore with
        | false => simp [encodeChunk_nil, concatStrings]
        | true =>
          simpa [encodeChunk_nil, concatStrings] using
            ih (offset + CHUNK_SIZE) (tf + fetchedCount)
      · have hpos : (encodeChunk data).length > 0 := encodeChunk_length_pos hd
        cases hasMore with
        | false =>
          dsimp only
          rw [if_pos hpos, concatStrings_singleton, encodeChunk_eq]
        | true =>
          dsimp only
          rw [if_pos hpos, List.singleton_append, concatStrings_cons, ih,
            List.map_append, concatStrings_append, encodeChunk_eq]

/-- The rows received are exactly the data of the responses at the
offsets requested, in request order; failing requests contribute none. -/
theorem loop_rows_eq (server : Nat → Nat → ChunkResponse) (count : Nat) :
    ∀ (fuel offset tf : Nat),
      (downloadLoop server count fuel offset tf).rows
        = (((downloadLoop server count fuel offset tf).offsets).map
            (fun o => responseData (server o CHUNK_SIZE))).flatten := by
  intro fuel
  induction fuel with
  | zero => intro offset tf; simp [downloadLoop]
  | succ fuel ih =>
    intro offset tf
    simp only [downloadLoop]
    cases hs : server offset CHUNK_SIZE with
    | httpError s t => simp [hs, responseData]
    | logicalError e => simp [hs, responseData]
    | ok data fetchedCount hasMore =>
      cases hasMore with
      | false => simp [hs, responseData]
      | true =>
        dsimp only
        simp only [List.map_cons, List.flatten_cons]
        rw [hs, responseData_ok, ih]

/-- The number of data fragments pushed equals the number of requested
pages whose response carried at least one record. -/
theorem loop_frags_count (server : Nat → Nat → ChunkResponse) (count : Nat) :
    ∀ (fuel offset tf : Nat),
      (downloadLoop server count fuel offset tf).frags.length
        = ((((downloadLoop server count fuel offset tf).offsets).map
            (fun o => responseData (server o CHUNK_SIZE))).filter
              (fun l => !l.isEmpty)).length := by
  intro fuel
  induction fuel with
  | zero => intro offset tf; simp [downloadLoop]
  | succ fuel ih =>
    intro offset tf
    simp only [downloadLoop]
    cases hs : server offset CHUNK_SIZE with
    | httpError s t => simp [hs, responseData]
    | logicalError e => simp [hs, responseData]
    | ok data fetchedCount hasMore =>
      by_cases hd : data = []
      · subst hd
        cases hasMore with
        | false => simp [hs, responseData, encodeChunk_nil]
        | true =>
          simpa [hs, responseData, encodeChunk_nil] using
            ih (offset + CHUNK_SIZE) (tf + fetchedCount)
      · have hpos : (encodeChunk data).length > 0 := encodeChunk_length_pos hd
        have hne : (!data.isEmpty) = true := by
          cases data with
          | nil => exact absurd rfl hd
          | cons a l => rfl
        cases hasMore with
        | false =>
          dsimp only
          rw [if_pos hpos]
          simp only [List.map_cons, List.map_nil, List.filter_cons]
          rw [hs]
          simp [responseData, hne]
        | true =>
          dsimp only
          rw [if_pos hpos]
          simp only [List.singleton_append, List.map_cons, List.filter_cons]
          rw [hs, responseData_ok]
          simp only [hne, if_pos, List.length_cons]
          rw [ih]

/-! ### Unfolding executeDownload by case -/

theorem clearedDownloadState_eq (st : DashState) :
    clearedDownloadState st = initialDashState := rfl

theorem execFromLoop_offsets (stP : DashState) (lo : LoopOut) :
    (execFromLoop stP lo).offsets = lo.offsets := by
  obtain ⟨o, f, offs, p, r, t⟩ := lo
  cases o <;> rfl

theorem execFromLoop_progressLog (stP : DashState) (lo : LoopOut) :
    (execFromLoop stP lo).progressLog = lo.progressLog := by
  obtain ⟨o, f, offs, p, r, t⟩ := lo
  cases o <;> rfl

theorem execFromLoop_dataFragments (stP : DashState) (lo : LoopOut) :
    (execFromLoop stP lo).dataFragments = lo.frags := by
  obtain ⟨o, f, offs, p, r, t⟩ := lo
  cases o <;> rfl

theorem execFromLoop_rowsReceived (stP : DashState) (lo : LoopOut) :
    (execFromLoop stP lo).rowsReceived = lo.rows := by
  obtain ⟨o, f, offs, p, r, t⟩ := lo
  cases o <;> rfl

theorem executeDownload_noPreview {st : DashState} (hsum : st.downloadSummary = none)
    (url key : Option String) (server : Nat → Nat → ChunkResponse) (fuel : Nat) :
    executeDownload st url key server fuel = ⟨st, [], none, [], [], [], .noPreview⟩ := by
  unfold executeDownload
  rw [hsum]

theorem executeDownload_configMissing {st : DashState} {s : DownloadSummary}
    {url key : Option String}
    (hsum : st.downloadSummary = some s)
    (hcfg : (!(truthyStr url) || !(truthyStr key)) = true)
    (server : Nat → Nat → ChunkResponse) (fuel : Nat) :
    executeDownload st url key server fuel =
      ⟨{ st with downloadProgress := .num 0 }, [], none, [], [], [], .configMissing⟩ := by
  unfold executeDownload
  rw [hsum]
  dsimp only
  rw [if_pos hcfg]

theorem executeDownload_completed_eq {st : DashState} {s : DownloadSummary}
    {url key : Option String} {server : Nat → Nat → ChunkResponse} {fuel : Nat}
    (hsum : st.downloadSummary = some s)
    (hu : truthyStr url = true) (hk : truthyStr key = true)
    (hc : (downloadLoop server s.count fuel 0 0).outcome = .completed) :
    executeDownload st url key server fuel =
      ⟨initialDashState,
        (downloadLoop server s.count fuel 0 0).offsets,
        some (headerLine :: (downloadLoop server s.count fuel 0 0).frags),
        (downloadLoop server s.count fuel 0 0).frags,
        (downloadLoop server s.count fuel 0 0).progressLog,
        (downloadLoop server s.count fuel 0 0).rows, .success⟩ := by
  unfold executeDownload
  rw [hsum]
  dsimp only
  rw [if_neg (by simp [hu, hk])]
  unfold execFromLoop
  rw [hc]
  rfl

theorem executeDownload_failed_eq {st : DashState} {s : DownloadSummary}
    {url key : Option String} {server : Nat → Nat → ChunkResponse} {fuel : Nat}
    {msg : String}
    (hsum : st.downloadSummary = some s)
    (hu : truthyStr url = true) (hk : truthyStr key = true)
    (hf : (downloadLoop server s.count fuel 0 0).outcome = .failed msg) :
    executeDownload st url key server fuel =
      ⟨{ st with downloadProgress :=
          lastProgress (downloadLoop server s.count fuel 0 0).progressLog },
        (downloadLoop server s.count fuel 0 0).offsets, none,
        (downloadLoop server s.count fuel 0 0).frags,
        (downloadLoop server s.count fuel 0 0).progressLog,
        (downloadLoop server s.count fuel 0 0).rows, .failed msg⟩ := by
  unfold executeDownload
  rw [hsum]
  dsimp only
  rw [if_neg (by simp [hu, hk])]
  unfold execFromLoop
  rw [hf]

theorem exec_success_inv {st : DashState} {url key : Option String}
    {server : Nat → Nat → ChunkResponse} {fuel : Nat}
    (h : (executeDownload st url key server fuel).outcome = .success) :
    ∃ s, st.downloadSummary = some s ∧ truthyStr url = true ∧ truthyStr key = true ∧
      (downloadLoop server s.count fuel 0 0).outcome = .completed := by
  cases hsum : st.downloadSummary with
  | none => rw [executeDownload_noPreview hsum] at h; cases h
  | some s =>
    by_cases hcfg : (!(truthyStr url) || !(truthyStr key)) = true
    · rw [executeDownload_configMissing hsum hcfg] at h; cases h
    · simp only [Bool.or_eq_true, Bool.not_eq_eq_eq_not, Bool.not_true] at hcfg
      push_neg at hcfg
      have hu : truthyStr url = true := by
        cases h1 : truthyStr url
        · exact absurd h1 hcfg.1
        · rfl
      have hk : truthyStr key = true := by
        cases h1 : truthyStr key
        · exact absurd h1 hcfg.2
        · rfl
      refine ⟨s, rfl, hu, hk, ?_⟩
      cases ho : (downloadLoop server s.count fuel 0 0).outcome with
      | completed => rfl
      | failed msg => rw [executeDownload_failed_eq hsum hu hk ho] at h; cases h
      | fuelOut =>
        unfold executeDownload at h
        rw [hsum] at h
        dsimp only at h
        rw [if_neg (by simp [hu, hk])] at h
        unfold execFromLoop at h
        rw [ho] at h
        cases h

/-! ### Claim C2: fragments encode the server records, in order -/

/-- C2: in a run in which all page requests succeed (the run reaches the
success outcome), the concatenation of the data fragments appended to the
buffer, in append order, encodes exactly the records returned by the
server across all pages, in server order, with no record reordered,
duplicated or omitted: it equals the line encoding of the received row
list, and the received row list is exactly the concatenation of the data
of the responses at the requested offsets, in request order. -/
theorem claimC2_fragments (st : DashState) (url key : Option String)
    (server : Nat → Nat → ChunkResponse) (fuel : Nat)
    (h : (executeDownload st url key server fuel).outcome = .success) :
    concatStrings (executeDownload st url key server fuel).dataFragments
      = concatStrings
          (((executeDownload st url key server fuel).rowsReceived).map encodeRow) ∧
    (executeDownload st url key server fuel).rowsReceived
      = (((executeDownload st url key server fuel).offsets).map
          (fun o => responseData (server o CHUNK_SIZE))).flatten := by
  obtain ⟨s, hsum, hu, hk, hc⟩ := exec_success_inv h
  rw [executeDownload_completed_eq hsum hu hk hc]
  exact ⟨loop_frags_join server s.count fuel 0 0, loop_rows_eq server s.count fuel 0 0⟩

/-- Witness for C2: a two page run, three records in the first page and
one in the second. -/
def twoPageServer : Nat → Nat → ChunkResponse :=
  fun offset _ =>
    if offset = 0 then
      .ok [⟨"2024-07-01", "10:00", "33.77", "-84.39", "91.5", "Walking"⟩,
           ⟨"2024-07-01", "10:05", "33.78", "-84.40", "92.1", "Cycling"⟩,
           ⟨"2024-07-01", "10:10", "33.79", "-84.41", "88.0", "Driving"⟩] 3 true
    else
      .ok [⟨"2024-07-02", "11:00", "33.80", "-84.42", "85.2", "Walking"⟩] 1 false

/-- A state holding a preview summary, as left by a confirmed preview. -/
def readyState : DashState :=
  ⟨"2024-07-01", "2024-07-02", "", "", none, none,
    some ⟨4, "2024-07-01 to 2024-07-02", "All day", "All", 0⟩, .num 0⟩

theorem claimC2_witness :
    concatStrings (executeDownload readyState (some "u") (some "k") twoPageServer 3).dataFragments
      = concatStrings
          (((executeDownload readyState (some "u") (some "k") twoPageServer 3).rowsReceived).map
            encodeRow) ∧
    (executeDownload readyState (some "u") (some "k") twoPageServer 3).rowsReceived
      = (((executeDownload readyState (some "u") (some "k") twoPageServer 3).offsets).map
          (fun o => responseData (twoPageServer o CHUNK_SIZE))).flatten :=
  claimC2_fragments readyState (some "u") (some "k") twoPageServer 3 (by decide)

/-! ### Claim C6: artifact format -/

/-- C6: on success the artifact is the header fragment followed by the
data fragments, and its full text is the fixed comma joined header line
followed by one line per received record, fields literally concatenated
with comma separators in the fixed order, a trailing newline per line,
and no quoting or escaping applied anywhere. -/
theorem claimC6_artifactFormat (st : DashState) (url key : Option String)
    (server : Nat → Nat → ChunkResponse) (fuel : Nat)
    (h : (executeDownload st url key server fuel).outcome = .success) :
    (executeDownload st url key server fuel).artifact
      = some (headerLine :: (executeDownload st url key server fuel).dataFragments) ∧
    concatStrings (headerLine :: (executeDownload st url key server fuel).dataFragments)
      = "date,time,latitude,longitude,probe_temperature_f,transit\n"
        ++ concatStrings
            (((executeDownload st url key server fuel).rowsReceived).map
              (fun row => row.date ++ "," ++ row.time ++ "," ++ row.latitude ++ ","
                ++ row.longitude ++ "," ++ row.probe_temperature_f ++ ","
                ++ row.transit ++ "\n")) := by
  obtain ⟨s, hsum, hu, hk, hc⟩ := exec_success_inv h
  rw [executeDownload_completed_eq hsum hu hk hc]
  refine ⟨rfl, ?_⟩
  rw [concatStrings_cons]
  have hj := loop_frags_join server s.count fuel 0 0
  dsimp only
  rw [hj]
  rfl

theorem claimC6_witness :
    (executeDownload readyState (some "u") (some "k") twoPageServer 3).artifact
      = some (headerLine ::
          (executeDownload readyState (some "u") (some "k") twoPageServer 3).dataFragments) ∧
    concatStrings (headerLine ::
        (executeDownload readyState (some "u") (some "k") twoPageServer 3).dataFragments)
      = "date,time,latitude,longitude,probe_temperature_f,transit\n"
        ++ concatStrings
            (((executeDownload readyState (some "u") (some "k") twoPageServer 3).rowsReceived).map
              (fun row => row.date ++ "," ++ row.time ++ "," ++ row.latitude ++ ","
                ++ row.longitude ++ "," ++ row.probe_temperature_f ++ ","
                ++ row.transit ++ "\n")) :=
  claimC6_artifactFormat readyState (some "u") (some "k") twoPageServer 3 (by decide)

/-! ### Claim C8: the preview gate -/

/-- C8: executeDownload started without a preview summary returns at once,
issuing no page request, producing no artifact, emitting no progress and
leaving the state untouched; while with any preview summary present,
including one whose count is zero, and the configuration present, at
least one page request is issued. -/
theorem claimC8_previewGate (st : DashState) (url key : Option String)
    (server : Nat → Nat → ChunkResponse) (fuel : Nat) :
    (st.downloadSummary = none →
      executeDownload st url key server fuel = ⟨st, [], none, [], [], [], .noPreview⟩) ∧
    (∀ s : DownloadSummary, st.downloadSummary = some s →
      truthyStr url = true → truthyStr key = true → 0 < fuel →
      (executeDownload st url key server fuel).offsets ≠ []) := by
  constructor
  · intro hsum
    exact executeDownload_noPreview hsum url key server fuel
  · intro s hsum hu hk hfuel
    unfold executeDownload
    rw [hsum]
    dsimp only
    rw [if_neg (by simp [hu, hk])]
    rw [execFromLoop_offsets]
    cases fuel with
    | zero => cases hfuel
    | succ f =>
      simp only [downloadLoop]
      cases hs : server 0 CHUNK_SIZE with
      | httpError a b => simp
      | logicalError e => simp
      | ok data fetchedCount hasMore =>
        cases hasMore <;> simp

theorem claimC8_witness :
    executeDownload initialDashState (some "u") (some "k") twoPageServer 3
      = ⟨initialDashState, [], none, [], [], [], .noPreview⟩ ∧
    (executeDownload
        ⟨"", "", "", "", none, some 7, some ⟨0, "July (all years)", "All day", "All", 0⟩, .num 0⟩
        (some "u") (some "k") (idealServer []) 2).offsets ≠ [] :=
  ⟨(claimC8_previewGate initialDashState (some "u") (some "k") twoPageServer 3).1 rfl,
    (claimC8_previewGate _ (some "u") (some "k") (idealServer []) 2).2
      ⟨0, "July (all years)", "All day", "All", 0⟩ rfl rfl rfl (by decide)⟩

/-! ### Claim C9: missing configuration fails before any request -/

/-- C9: with the backend configuration missing (an absent or empty URL or
anon key), and filters that pass the preview validation, previewDownload
fails before issuing its single record request, and executeDownload
started from any state holding a preview summary fails before issuing any
page request and produces no artifact. -/
theorem claimC9_configFailure (st : DashState) (url key : Option String)
    (server : Nat → Nat → ChunkResponse) (fuel : Nat) (s : DownloadSummary)
    (hcfg : truthyStr url = false ∨ truthyStr key = false)
    (hsum : st.downloadSummary = some s)
    (hvalid : (!(truthyMonth st.downloadMonth)
      && (st.downloadStartDate == "" || st.downloadEndDate == "")) = false) :
    previewDownload st url key = ⟨false, .configFailure⟩ ∧
    (executeDownload st url key server fuel).offsets = [] ∧
    (executeDownload st url key server fuel).artifact = none ∧
    (executeDownload st url key server fuel).outcome = .configMissing := by
  have hcfg2 : (!(truthyStr url) || !(truthyStr key)) = true := by
    rcases hcfg with h | h <;> simp [h]
  constructor
  · unfold previewDownload
    rw [hvalid]
    simp only [Bool.false_eq_true, if_false]
    rw [if_pos hcfg2]
  · rw [executeDownload_configMissing hsum hcfg2]
    exact ⟨rfl, rfl, rfl⟩

theorem claimC9_witness :
    previewDownload readyState none (some "k") = ⟨false, .configFailure⟩ ∧
    (executeDownload readyState none (some "k") twoPageServer 3).offsets = [] ∧
    (executeDownload readyState none (some "k") twoPageServer 3).artifact = none ∧
    (executeDownload readyState none (some "k") twoPageServer 3).outcome
      = .configMissing :=
  claimC9_configFailure readyState none (some "k") twoPageServer 3
    ⟨4, "2024-07-01 to 2024-07-02", "All day", "All", 0⟩
    (Or.inl rfl) rfl (by decide)

/-! ### Claim C10: failure leaves the export request intact -/

/-- C10: export failure is atomic for the Export Request: when any page
fetch fails, the download filter parameters (start and end date, start
and end time, transport, month) and the preview summary are exactly as
before the call, so the same request can be retried from offset zero; and
they are cleared precisely on the success outcome. -/
theorem claimC10_failureAtomic (st : DashState) (url key : Option String)
    (server : Nat → Nat → ChunkResponse) (fuel : Nat) :
    ((executeDownload st url key server fuel).outcome.isFailed = true →
      (executeDownload st url key server fuel).finalState.downloadStartDate
          = st.downloadStartDate ∧
      (executeDownload st url key server fuel).finalState.downloadEndDate
          = st.downloadEndDate ∧
      (executeDownload st url key server fuel).finalState.downloadStartTime
          = st.downloadStartTime ∧
      (executeDownload st url key server fuel).finalState.downloadEndTime
          = st.downloadEndTime ∧
      (executeDownload st url key server fuel).finalState.downloadTransport
          = st.downloadTransport ∧
      (executeDownload st url key server fuel).finalState.downloadMonth
          = st.downloadMonth ∧
      (executeDownload st url key server fuel).finalState.downloadSummary
          = st.downloadSummary) ∧
    ((executeDownload st url key server fuel).outcome = .success →
      (executeDownload st url key server fuel).finalState = initialDashState) := by
  constructor
  · intro hfail
    cases hsum : st.downloadSummary with
    | none =>
      rw [executeDownload_noPreview hsum] at hfail ⊢
      exact ⟨rfl, rfl, rfl, rfl, rfl, rfl, hsum⟩
    | some s =>
      by_cases hcfg : (!(truthyStr url) || !(truthyStr key)) = true
      · rw [executeDownload_configMissing hsum hcfg] at hfail ⊢
        exact ⟨rfl, rfl, rfl, rfl, rfl, rfl, hsum⟩
      · simp only [Bool.or_eq_true, Bool.not_eq_eq_eq_not, Bool.not_true] at hcfg
        push_neg at hcfg
        have hu : truthyStr url = true := by
          cases h1 : truthyStr url
          · exact absurd h1 hcfg.1
          · rfl
        have hk : truthyStr key = true := by
          cases h1 : truthyStr key
          · exact absurd h1 hcfg.2
          · rfl
        cases ho : (downloadLoop server s.count fuel 0 0).outcome with
        | completed =>
          rw [executeDownload_completed_eq hsum hu hk ho] at hfail
          cases hfail
        | failed msg =>
          rw [executeDownload_failed_eq hsum hu hk ho] at hfail ⊢
          exact ⟨rfl, rfl, rfl, rfl, rfl, rfl, hsum⟩
        | fuelOut =>
          unfold executeDownload at hfail ⊢
          rw [hsum] at hfail ⊢
          dsimp only at hfail ⊢
          rw [if_neg (by simp [hu, hk])] at hfail ⊢
          unfold execFromLoop at hfail ⊢
          rw [ho] at hfail ⊢
          exact ⟨rfl, rfl, rfl, rfl, rfl, rfl, rfl⟩
  · intro hsucc
    obtain ⟨s, hsum, hu, hk, hc⟩ := exec_success_inv hsucc
    rw [executeDownload_completed_eq hsum hu hk hc]

/-- Witness for C10: the failing branch at a server whose second page
returns HTTP 500, and the success branch at the two page server. -/
def failingServer : Nat → Nat → ChunkResponse :=
  fun offset _ =>
    if offset = 0 then
      .ok [⟨"2024-07-01", "10:00", "33.77", "-84.39", "91.5", "Walking"⟩] 1 true
    else
      .httpError 500 "Internal Server Error"

theorem claimC10_witness :
    ((executeDownload readyState (some "u") (some "k") failingServer 3).finalState.downloadStartDate
        = readyState.downloadStartDate ∧
      (executeDownload readyState (some "u") (some "k") failingServer 3).finalState.downloadEndDate
        = readyState.downloadEndDate ∧
      (executeDownload readyState (some "u") (some "k") failingServer 3).finalState.downloadStartTime
        = readyState.downloadStartTime ∧
      (executeDownload readyState (some "u") (some "k") failingServer 3).finalState.downloadEndTime
        = readyState.downloadEndTime ∧
      (executeDownload readyState (some "u") (some "k") failingServer 3).finalState.downloadTransport
        = readyState.downloadTransport ∧
      (executeDownload readyState (some "u") (some "k") failingServer 3).finalState.downloadMonth
        = readyState.downloadMonth ∧
      (executeDownload readyState (some "u") (some "k") failingServer 3).finalState.downloadSummary
        = readyState.downloadSummary) ∧
    (executeDownload readyState (some "u") (some "k") twoPageServer 3).finalState
      = initialDashState :=
  ⟨(claimC10_failureAtomic readyState (some "u") (some "k") failingServer 3).1 (by decide),
    (claimC10_failureAtomic readyState (some "u") (some "k") twoPageServer 3).2 (by decide)⟩

/-! ### Claim C5: month and date range mutual exclusion -/

theorem exclusiveFilters_iff (st : DashState) :
    exclusiveFilters st ↔
      (st.downloadMonth = none ∨
        (st.downloadStartDate = "" ∧ st.downloadEndDate = "")) := by
  unfold exclusiveFilters
  cases h : st.downloadMonth <;> simp [h]

theorem exclusiveFilters_preserved {st : DashState} {op : FilterOp}
    (hst : exclusiveFilters st) (hop : selectableOp op) :
    exclusiveFilters (applyFilterOp st op) := by
  rw [exclusiveFilters_iff] at hst ⊢
  cases op with
  | setMonth v =>
    cases v with
    | none => simp [applyFilterOp, truthyMonth]
    | some m =>
      have hm : m ≠ 0 := by
        intro h0
        subst h0
        simp [selectableOp, monthValues] at hop
      simp [applyFilterOp, truthyMonth, hm]
  | setStartDate v =>
    by_cases hv : v = ""
    · subst hv
      simp only [applyFilterOp, bne_self_eq_false, Bool.false_eq_true, if_false]
      rcases hst with h | h <;> simp [h]
    · simp [applyFilterOp, hv]
  | setEndDate v =>
    by_cases hv : v = ""
    · subst hv
      simp only [applyFilterOp, bne_self_eq_false, Bool.false_eq_true, if_false]
      rcases hst with h | h <;> simp [h]
    · simp [applyFilterOp, hv]

theorem exclusiveFilters_foldl {st : DashState} (hst : exclusiveFilters st)
    (ops : List FilterOp) (hops : ∀ op ∈ ops, selectableOp op) :
    exclusiveFilters (ops.foldl applyFilterOp st) := by
  induction ops generalizing st with
  | nil => exact hst
  | cons op rest ih =>
    simp only [List.foldl_cons]
    exact ih (exclusiveFilters_preserved hst (hops op (by simp)))
      (fun o ho => hops o (by simp [ho]))

/-- C5: the recurring month selector and the explicit date range filter
are mutually exclusive. Setting a month offered by the select clears both
dates; setting a non empty start or end date clears the month; and from
the initial state, after any sequence of handler invocations whose month
values come from the select, it is never the case that both a month and a
date range value are set. -/
theorem claimC5_mutualExclusion :
    (∀ (st : DashState) (m : Nat), m ∈ monthValues →
      (applyFilterOp st (.setMonth (some m))).downloadStartDate = "" ∧
      (applyFilterOp st (.setMonth (some m))).downloadEndDate = "") ∧
    (∀ (st : DashState) (v : String), v ≠ "" →
      (applyFilterOp st (.setStartDate v)).downloadMonth = none) ∧
    (∀ (st : DashState) (v : String), v ≠ "" →
      (applyFilterOp st (.setEndDate v)).downloadMonth = none) ∧
    (∀ ops : List FilterOp, (∀ op ∈ ops, selectableOp op) →
      exclusiveFilters (ops.foldl applyFilterOp initialDashState)) := by
  refine ⟨?_, ?_, ?_, ?_⟩
  · intro st m hm
    have hm0 : m ≠ 0 := by
      intro h0
      subst h0
      simp [monthValues] at hm
    simp [applyFilterOp, truthyMonth, hm0]
  · intro st v hv
    simp [applyFilterOp, hv]
  · intro st v hv
    simp [applyFilterOp, hv]
  · intro ops hops
    refine exclusiveFilters_foldl ?_ ops hops
    intro h
    exact absurd h.1 (by simp [initialDashState])

/-- Witness for C5 at concrete inputs: a state with a date range set, the
month handler at value 3, the date handlers at a non empty value, and the
operation sequence set start date, set month, set end date. -/
theorem claimC5_witness :
    ((applyFilterOp ⟨"2024-01-01", "2024-01-31", "", "", none, none, none, .num 0⟩
        (.setMonth (some 3))).downloadStartDate = "" ∧
      (applyFilterOp ⟨"2024-01-01", "2024-01-31", "", "", none, none, none, .num 0⟩
        (.setMonth (some 3))).downloadEndDate = "") ∧
    (applyFilterOp ⟨"", "", "", "", none, some 3, none, .num 0⟩
      (.setStartDate "2024-02-01")).downloadMonth = none ∧
    (applyFilterOp ⟨"", "", "", "", none, some 3, none, .num 0⟩
      (.setEndDate "2024-02-02")).downloadMonth = none ∧
    exclusiveFilters
      ([FilterOp.setStartDate "2024-02-01", FilterOp.setMonth (some 7),
        FilterOp.setEndDate "2024-03-01"].foldl applyFilterOp initialDashState) := by
  refine ⟨claimC5_mutualExclusion.1 _ 3 (by decide),
    claimC5_mutualExclusion.2.1 _ _ (by decide),
    claimC5_mutualExclusion.2.2.1 _ _ (by decide),
    claimC5_mutualExclusion.2.2.2 _ ?_⟩
  intro op hop
  simp only [List.mem_cons, List.not_mem_nil, or_false] at hop
  rcases hop with h | h | h <;> subst h <;> decide

/-! ### Claim C3: a page failure aborts the session -/

theorem loop_fail_at (server : Nat → Nat → ChunkResponse) (count : Nat) :
    ∀ (k : Nat), ∀ (offset tf fuel : Nat), k + 1 ≤ fuel →
      isFailureResponse (server (offset + k * CHUNK_SIZE) CHUNK_SIZE) = true →
      (∀ j, j < k → isOkWithMore (server (offset + j * CHUNK_SIZE) CHUNK_SIZE) = true) →
      (downloadLoop server count fuel offset tf).outcome
          = .failed (failMessage (server (offset + k * CHUNK_SIZE) CHUNK_SIZE)) ∧
      (downloadLoop server count fuel offset tf).offsets
          = (List.range (k + 1)).map (fun j => offset + j * CHUNK_SIZE) := by
  intro k
  induction k with
  | zero =>
    intro offset tf fuel hfuel hfail hok
    obtain ⟨f, rfl⟩ : ∃ f, fuel = f + 1 := ⟨fuel - 1, by omega⟩
    simp only [Nat.zero_mul, Nat.add_zero] at hfail ⊢
    simp only [downloadLoop]
    cases hs : server offset CHUNK_SIZE with
    | httpError status text => simp [List.range_succ]
    | logicalError e => simp [List.range_succ]
    | ok data fetchedCount hasMore =>
      rw [hs] at hfail
      cases hfail
  | succ k ih =>
    intro offset tf fuel hfuel hfail hok
    obtain ⟨f, rfl⟩ : ∃ f, fuel = f + 1 := ⟨fuel - 1, by omega⟩
    have h0 := hok 0 (Nat.succ_pos k)
    simp only [Nat.zero_mul, Nat.add_zero] at h0
    simp only [downloadLoop]
    cases hs : server offset CHUNK_SIZE with
    | httpError status text => rw [hs] at h0; cases h0
    | logicalError e => rw [hs] at h0; cases h0
    | ok data fetchedCount hasMore =>
      rw [hs] at h0
      cases hasMore with
      | false => cases h0
      | true =>
        dsimp only
        have harr : offset + (k + 1) * CHUNK_SIZE
            = (offset + CHUNK_SIZE) + k * CHUNK_SIZE := by
          rw [Nat.succ_mul]
          omega
        have hih := ih (offset + CHUNK_SIZE) (tf + fetchedCount) f (by omega)
          (by rw [← harr]; exact hfail)
          (by
            intro j hj
            have := hok (j + 1) (by omega)
            rwa [show offset + (j + 1) * CHUNK_SIZE
                = (offset + CHUNK_SIZE) + j * CHUNK_SIZE by rw [Nat.succ_mul]; omega]
              at this)
        refine ⟨by rw [hih.1, harr], ?_⟩
        rw [hih.2]
        rw [List.range_succ_eq_map (k + 1), List.map_cons, List.map_map]
        congr 1
        apply List.map_congr_left
        intro a ha
        simp only [Function.comp_apply, Nat.succ_eq_add_one]
        have hsm : (a + 1) * CHUNK_SIZE = a * CHUNK_SIZE + CHUNK_SIZE :=
          Nat.succ_mul a CHUNK_SIZE
        omega

/-- C3: a failing page request (non 2xx HTTP status or a response with
success equal to false) at page index k, after k successful pages with
records remaining, aborts the session at once: the outcome is the
surfaced failure whose message comes from that response, no blob is
created (the buffered fragments are discarded), and exactly the requests
at offsets 0, CHUNK_SIZE, ..., k * CHUNK_SIZE were issued — none after
the failing one, and no retry of any offset. -/
theorem claimC3_abortOnFailure (st : DashState) (url key : Option String)
    (server : Nat → Nat → ChunkResponse) (fuel k : Nat) (s : DownloadSummary)
    (hsum : st.downloadSummary = some s)
    (hu : truthyStr url = true) (hk2 : truthyStr key = true)
    (hfuel : k + 1 ≤ fuel)
    (hfail : isFailureResponse (server (k * CHUNK_SIZE) CHUNK_SIZE) = true)
    (hok : ∀ j, j < k → isOkWithMore (server (j * CHUNK_SIZE) CHUNK_SIZE) = true) :
    (executeDownload st url key server fuel).outcome
        = .failed (failMessage (server (k * CHUNK_SIZE) CHUNK_SIZE)) ∧
    (executeDownload st url key server fuel).artifact = none ∧
    (executeDownload st url key server fuel).offsets
        = (List.range (k + 1)).map (fun j => j * CHUNK_SIZE) := by
  have hl := loop_fail_at server s.count k 0 0 fuel hfuel
    (by simpa using hfail) (by simpa using hok)
  simp only [Nat.zero_add] at hl
  obtain ⟨ho, hoffs⟩ := hl
  rw [executeDownload_failed_eq hsum hu hk2 ho]
  exact ⟨rfl, rfl, hoffs⟩

/-- Witness for C3: the second page (k equal 1) answers HTTP 500. -/
theorem claimC3_witness :
    (executeDownload readyState (some "u") (some "k") failingServer 3).outcome
        = .failed (failMessage (failingServer (1 * CHUNK_SIZE) CHUNK_SIZE)) ∧
    (executeDownload readyState (some "u") (some "k") failingServer 3).artifact = none ∧
    (executeDownload readyState (some "u") (some "k") failingServer 3).offsets
        = (List.range 2).map (fun j => j * CHUNK_SIZE) :=
  claimC3_abortOnFailure readyState (some "u") (some "k") failingServer 3 1
    ⟨4, "2024-07-01 to 2024-07-02", "All day", "All", 0⟩ rfl rfl rfl (by omega)
    (by decide)
    (by
      intro j hj
      have hj0 : j = 0 := by omega
      subst hj0
      decide)

/-! ### Claim C1: page count and offsets over a well behaved endpoint -/

theorem idealServer_eq (rows : List Row) (offset limit : Nat) :
    idealServer rows offset limit
      = .ok ((rows.drop offset).take limit) ((rows.drop offset).take limit).length
          (decide (offset + ((rows.drop offset).take limit).length < rows.length)) := rfl

/-- Over the ideal endpoint for a fixed dataset, a loop started at an
offset with m further full pages ahead completes and requests exactly the
offsets offset, offset + CHUNK_SIZE, ..., offset + m * CHUNK_SIZE. -/
theorem loop_ideal (rows : List Row) (count : Nat) :
    ∀ (m : Nat), ∀ (offset tf fuel : Nat), m + 1 ≤ fuel →
      rows.length ≤ offset + m * CHUNK_SIZE + CHUNK_SIZE →
      (∀ j, j < m → offset + j * CHUNK_SIZE + CHUNK_SIZE < rows.length) →
      (downloadLoop (idealServer rows) count fuel offset tf).outcome = .completed ∧
      (downloadLoop (idealServer rows) count fuel offset tf).offsets
        = (List.range (m + 1)).map (fun j => offset + j * CHUNK_SIZE) := by
  intro m
  induction m with
  | zero =>
    intro offset tf fuel hfuel hub hlt
    obtain ⟨f, rfl⟩ : ∃ f, fuel = f + 1 := ⟨fuel - 1, by omega⟩
    have hnot : ¬(offset + (List.take CHUNK_SIZE (List.drop offset rows)).length
        < rows.length) := by
      simp only [List.length_take, List.length_drop]
      rcases Nat.le_total CHUNK_SIZE (rows.length - offset) with h | h
      · rw [Nat.min_eq_left h]
        omega
      · rw [Nat.min_eq_right h]
        omega
    have hdec : decide (offset + (List.take CHUNK_SIZE (List.drop offset rows)).length
        < rows.length) = false := decide_eq_false hnot
    simp only [downloadLoop]
    rw [idealServer_eq]
    dsimp only
    rw [hdec]
    dsimp only
    refine ⟨rfl, ?_⟩
    simp [List.range_succ]
  | succ m ih =>
    intro offset tf fuel hfuel hub hlt
    obtain ⟨f, rfl⟩ : ∃ f, fuel = f + 1 := ⟨fuel - 1, by omega⟩
    have h0 : offset + CHUNK_SIZE < rows.length := by
      have := hlt 0 (Nat.succ_pos m)
      simpa using this
    have hlen : (List.take CHUNK_SIZE (List.drop offset rows)).length = CHUNK_SIZE := by
      simp only [List.length_take, List.length_drop]
      rw [Nat.min_eq_left (by omega)]
    have hdec : decide (offset + (List.take CHUNK_SIZE (List.drop offset rows)).length
        < rows.length) = true := decide_eq_true (by rw [hlen]; omega)
    simp only [downloadLoop]
    rw [idealServer_eq]
    dsimp only
    rw [hdec]
    dsimp only
    have hsm : (m + 1) * CHUNK_SIZE = m * CHUNK_SIZE + CHUNK_SIZE :=
      Nat.succ_mul m CHUNK_SIZE
    have hih := ih (offset + CHUNK_SIZE)
      (tf + (List.take CHUNK_SIZE (List.drop offset rows)).length) f (by omega)
      (by omega)
      (by
        intro j hj
        have := hlt (j + 1) (by omega)
        have hsj : (j + 1) * CHUNK_SIZE = j * CHUNK_SIZE + CHUNK_SIZE :=
          Nat.succ_mul j CHUNK_SIZE
        omega)
    refine ⟨hih.1, ?_⟩
    rw [hih.2]
    rw [List.range_succ_eq_map (m + 1), List.map_cons, List.map_map]
    congr 1
    apply List.map_congr_left
    intro a ha
    simp only [Function.comp_apply, Nat.succ_eq_add_one]
    have hsa : (a + 1) * CHUNK_SIZE = a * CHUNK_SIZE + CHUNK_SIZE :=
      Nat.succ_mul a CHUNK_SIZE
    omega

/-- Successive multiples of CHUNK_SIZE increase by exactly CHUNK_SIZE. -/
theorem chain_offsets (n : Nat) :
    List.Chain' (fun a b => b = a + CHUNK_SIZE)
      ((List.range n).map (fun j => j * CHUNK_SIZE)) := by
  cases n with
  | zero => simp
  | succ k =>
    rw [List.chain'_map, List.chain'_range_succ]
    intro m hm
    exact Nat.succ_mul m CHUNK_SIZE

/-- A state whose confirmed preview reported zero matching records. -/
def zeroCountState : DashState :=
  ⟨"2024-07-01", "2024-07-02", "", "", none, none,
    some ⟨0, "2024-07-01 to 2024-07-02", "All day", "All", 0⟩, .num 0⟩

/-- C1 as stated fails on the empty dataset: the while loop enters with
hasMore initialised to true, so even with zero records one page request
at offset 0 is issued, while ceil(0 / 5000) is 0. -/
theorem claimC1_counterexample :
    (executeDownload zeroCountState (some "u") (some "k") (idealServer []) 2).offsets
        = [0] ∧
    (executeDownload zeroCountState (some "u") (some "k") (idealServer []) 2).offsets.length
        ≠ (([] : List Row).length + CHUNK_SIZE - 1) / CHUNK_SIZE := by
  decide

/-- C1 amended: over a well behaved endpoint for a dataset of T records
(pages of the next up to 5000 records, hasMore reported exactly when
records remain), a run with enough fuel succeeds and issues exactly
max(1, ceil(T / 5000)) page requests, at offsets 0, 5000, 10000, ...,
each offset exceeding the previous by exactly 5000; for T of at least
one record this count is ceil(T / 5000), and the empty dataset still
costs one probe request. -/
theorem claimC1_amended (rows : List Row) (st : DashState) (s : DownloadSummary)
    (url key : Option String) (fuel : Nat)
    (hsum : st.downloadSummary = some s)
    (hu : truthyStr url = true) (hk : truthyStr key = true)
    (hfuel : numPages rows.length ≤ fuel) :
    (executeDownload st url key (idealServer rows) fuel).outcome = .success ∧
    (executeDownload st url key (idealServer rows) fuel).offsets
      = (List.range (numPages rows.length)).map (fun j => j * CHUNK_SIZE) ∧
    List.Chain' (fun a b => b = a + CHUNK_SIZE)
      (executeDownload st url key (idealServer rows) fuel).offsets := by
  have h1n : 1 ≤ numPages rows.length := Nat.le_max_left 1 _
  have key1 : rows.length ≤ numPages rows.length * CHUNK_SIZE := by
    simp only [numPages, CHUNK_SIZE]
    rcases Nat.eq_zero_or_pos rows.length with h0 | h0
    · rw [h0]
      exact Nat.zero_le _
    · have h1 : 1 ≤ (rows.length + 5000 - 1) / 5000 := by omega
      rw [Nat.max_eq_right h1]
      omega
  have key2 : ∀ j, j < numPages rows.length - 1 →
      j * CHUNK_SIZE + CHUNK_SIZE < rows.length := by
    intro j hj
    rcases Nat.eq_zero_or_pos rows.length with h0 | h0
    · simp only [numPages, CHUNK_SIZE, h0] at hj
      omega
    · simp only [numPages, CHUNK_SIZE] at hj ⊢
      have h1 : 1 ≤ (rows.length + 5000 - 1) / 5000 := by omega
      rw [Nat.max_eq_right h1] at hj
      omega
  have hsm : (numPages rows.length - 1) * CHUNK_SIZE + CHUNK_SIZE
      = numPages rows.length * CHUNK_SIZE := by
    obtain ⟨p, hp⟩ : ∃ p, numPages rows.length = p + 1 :=
      ⟨numPages rows.length - 1, by omega⟩
    rw [hp]
    simp only [Nat.add_sub_cancel]
    rw [Nat.succ_mul]
  obtain ⟨ho, hoffs⟩ := loop_ideal rows s.count (numPages rows.length - 1) 0 0 fuel
    (by omega) (by omega) (by intro j hj; have := key2 j hj; omega)
  have hoffs2 : (downloadLoop (idealServer rows) s.count fuel 0 0).offsets
      = (List.range (numPages rows.length)).map (fun j => j * CHUNK_SIZE) := by
    rw [hoffs]
    have hn : (numPages rows.length - 1) + 1 = numPages rows.length := by omega
    rw [hn]
    apply List.map_congr_left
    intro a ha
    simp
  rw [executeDownload_completed_eq hsum hu hk ho]
  refine ⟨rfl, hoffs2, ?_⟩
  show List.Chain' (fun a b => b = a + CHUNK_SIZE)
    (downloadLoop (idealServer rows) s.count fuel 0 0).offsets
  rw [hoffs2]
  exact chain_offsets (numPages rows.length)

/-- Sample two record dataset used by the witness. -/
def sampleRows : List Row :=
  [⟨"2024-07-01", "10:00", "33.77", "-84.39", "91.5", "Walking"⟩,
   ⟨"2024-07-01", "10:05", "33.78", "-84.40", "92.1", "Cycling"⟩]

theorem claimC1_witness :
    (executeDownload readyState (some "u") (some "k") (idealServer sampleRows) 3).outcome
        = .success ∧
    (executeDownload readyState (some "u") (some "k") (idealServer sampleRows) 3).offsets
        = (List.range (numPages sampleRows.length)).map (fun j => j * CHUNK_SIZE) ∧
    List.Chain' (fun a b => b = a + CHUNK_SIZE)
      (executeDownload readyState (some "u") (some "k") (idealServer sampleRows) 3).offsets :=
  claimC1_amended sampleRows readyState
    ⟨4, "2024-07-01 to 2024-07-02", "All day", "All", 0⟩
    (some "u") (some "k") 3 rfl rfl rfl (by decide)

/-! ### Claim C4: progress monotone and capped -/

theorem jsRound_mono {a b c : Nat} (h : a ≤ b) : jsRound a c ≤ jsRound b c := by
  unfold jsRound
  exact Nat.div_le_div_right (by omega)

theorem progressOf_isNum {count : Nat} (hc : count ≠ 0) (t : Nat) :
    (progressOf count t).isNum = true := by
  simp [progressOf, hc, JsProgress.isNum]

theorem progressOf_le_100 {count : Nat} (hc : count ≠ 0) (t : Nat) :
    (progressOf count t).val ≤ 100 := by
  simp only [progressOf, if_neg hc, JsProgress.val]
  exact min_le_right _ _

theorem progressOf_val_mono {count : Nat} (hc : count ≠ 0) {t1 t2 : Nat} (h : t1 ≤ t2) :
    (progressOf count t1).val ≤ (progressOf count t2).val := by
  simp only [progressOf, if_neg hc, JsProgress.val]
  exact min_le_min (jsRound_mono (by omega)) le_rfl

/-- For a positive preview count, every progress value the loop emits is
an ordinary number at most 100, and the emitted sequence, prefixed with
the value the running total already justifies, is non decreasing. -/
theorem loop_progress (server : Nat → Nat → ChunkResponse) {count : Nat}
    (hc : count ≠ 0) :
    ∀ (fuel offset tf : Nat),
      (∀ p ∈ (downloadLoop server count fuel offset tf).progressLog,
          p.isNum = true ∧ p.val ≤ 100) ∧
      List.Chain' (fun a b => a.val ≤ b.val)
        (progressOf count tf :: (downloadLoop server count fuel offset tf).progressLog) := by
  intro fuel
  induction fuel with
  | zero =>
    intro offset tf
    simp [downloadLoop]
  | succ fuel ih =>
    intro offset tf
    simp only [downloadLoop]
    cases hs : server offset CHUNK_SIZE with
    | httpError a b => simp
    | logicalError e => simp
    | ok data fetchedCount hasMore =>
      cases hasMore with
      | false =>
        dsimp only
        constructor
        · intro p hp
          simp only [List.mem_singleton] at hp
          subst hp
          exact ⟨progressOf_isNum hc _, progressOf_le_100 hc _⟩
        · rw [List.chain'_pair]
          exact progressOf_val_mono hc (Nat.le_add_right tf fetchedCount)
      | true =>
        dsimp only
        have hih := ih (offset + CHUNK_SIZE) (tf + fetchedCount)
        constructor
        · intro p hp
          rcases List.mem_cons.mp hp with h | h
          · subst h
            exact ⟨progressOf_isNum hc _, progressOf_le_100 hc _⟩
          · exact hih.1 p h
        · exact List.chain'_cons.mpr
            ⟨progressOf_val_mono hc (Nat.le_add_right tf fetchedCount), hih.2⟩

/-- C4 amended: for every positive preview count under which the download
starts, each emitted progress value is an ordinary number of at most 100,
and the emitted sequence is monotonically non decreasing, over any server
behaviour; with a zero preview count the computation divides zero by
zero, whose result is NaN rather than the claimed numeric value (see the
counterexample). -/
theorem claimC4_amended (st : DashState) (url key : Option String)
    (server : Nat → Nat → ChunkResponse) (fuel : Nat) (s : DownloadSummary)
    (hsum : st.downloadSummary = some s) (hcount : 0 < s.count) :
    (∀ p ∈ (executeDownload st url key server fuel).progressLog,
        p.isNum = true ∧ p.val ≤ 100) ∧
    List.Chain' (fun a b => a.val ≤ b.val)
      (executeDownload st url key server fuel).progressLog := by
  have hc : s.count ≠ 0 := by omega
  unfold executeDownload
  rw [hsum]
  dsimp only
  by_cases hcfg : (!(truthyStr url) || !(truthyStr key)) = true
  · rw [if_pos hcfg]
    simp
  · rw [if_neg hcfg]
    rw [execFromLoop_progressLog]
    have hl := loop_progress server hc fuel 0 0
    exact ⟨hl.1, hl.2.tail⟩

/-- C4 as stated fails at a zero preview count: on the empty dataset the
single page leaves the running total at zero, the source computes
Math.min(Math.round((0 / 0) * 100), 100), and the value set as progress
is NaN — not a number at all, so not the claimed min(100, round(...)). -/
theorem claimC4_counterexample :
    (executeDownload zeroCountState (some "u") (some "k") (idealServer []) 2).progressLog
        = [JsProgress.nan] ∧
    JsProgress.nan.isNum = false := by
  decide

theorem claimC4_witness :
    (∀ p ∈ (executeDownload readyState (some "u") (some "k") twoPageServer 3).progressLog,
        p.isNum = true ∧ p.val ≤ 100) ∧
    List.Chain' (fun a b => a.val ≤ b.val)
      (executeDownload readyState (some "u") (some "k") twoPageServer 3).progressLog :=
  claimC4_amended readyState (some "u") (some "k") twoPageServer 3
    ⟨4, "2024-07-01 to 2024-07-02", "All day", "All", 0⟩ rfl (by decide)

/-! ### Claim C7: fragment count in the buffer -/

/-- A server whose first page carries no records but reports more. -/
def emptyPageServer : Nat → Nat → ChunkResponse :=
  fun offset _ =>
    if offset = 0 then .ok [] 0 true
    else .ok [⟨"2024-07-02", "11:00", "33.80", "-84.42", "85.2", "Walking"⟩] 1 false

/-- C7 as stated fails on a page with zero records: the source pushes a
fragment only when the encoded chunk is non empty, so the empty dataset
yields one received page but a buffer of only the header fragment — one
entry, not the claimed one plus one. -/
theorem claimC7_counterexample :
    (executeDownload zeroCountState (some "u") (some "k") (idealServer []) 2).artifact
        = some [headerLine] ∧
    (executeDownload zeroCountState (some "u") (some "k") (idealServer []) 2).offsets.length
        = 1 ∧
    ¬([headerLine] : List String).length = 1 + 1 := by
  decide

/-- C7 amended: at the end of a successful export the buffer holds the
header entry plus one entry per received page that returned at least one
record; pages that return zero records contribute no fragment, so for N
pages all non empty the buffer holds N plus one fragments. -/
theorem claimC7_amended (st : DashState) (url key : Option String)
    (server : Nat → Nat → ChunkResponse) (fuel : Nat)
    (h : (executeDownload st url key server fuel).outcome = .success) :
    (executeDownload st url key server fuel).artifact
      = some (headerLine :: (executeDownload st url key server fuel).dataFragments) ∧
    (executeDownload st url key server fuel).dataFragments.length
      = ((((executeDownload st url key server fuel).offsets).map
          (fun o => responseData (server o CHUNK_SIZE))).filter
            (fun l => !l.isEmpty)).length := by
  obtain ⟨s, hsum, hu, hk, hc⟩ := exec_success_inv h
  rw [executeDownload_completed_eq hsum hu hk hc]
  exact ⟨rfl, loop_frags_count server s.count fuel 0 0⟩

theorem claimC7_witness :
    (executeDownload readyState (some "u") (some "k") emptyPageServer 3).artifact
      = some (headerLine ::
          (executeDownload readyState (some "u") (some "k") emptyPageServer 3).dataFragments) ∧
    (executeDownload readyState (some "u") (some "k") emptyPageServer 3).dataFragments.length
      = ((((executeDownload readyState (some "u") (some "k") emptyPageServer 3).offsets).map
          (fun o => responseData (emptyPageServer o CHUNK_SIZE))).filter
            (fun l => !l.isEmpty)).length :=
  claimC7_amended readyState (some "u") (some "k") emptyPageServer 3 (by decide)

end UHATL
